import Mathlib

/-!
Shallow embedding of the secret-detection pipeline of the
`pdf-secret-inspector` backend (`SecretDetectorService` in
`backend-service/src/services/secretDetector.ts`, types in
`backend-service/src/types`).

Conventions of the embedding:
- TypeScript strings are Lean `String`s (operations are stated on their
  underlying `List Char` where convenient; JS `.length` is the char count).
- `null`/`undefined`-able JSON fields are `Option`s; the JS `??` operator is
  `jsOr`, and the JS `||`-with-string-default idiom (where the empty string is
  falsy) is `jsOrStr`.
- JS numbers that carry confidence scores are modelled as rationals.
- The async remote call is modelled by a `RemoteOutcome` parameter that
  enumerates every outcome of `axios.post` (and of the configuration check);
  a thrown JS exception is `Except.error`.  `detectSecrets` is then a total
  Lean function of the outcome and the text, mirroring the `try`/`catch`
  orchestration.
- Each regular expression of the local rule table is embedded as an explicit
  matcher `List Char → Option Nat` giving the length of the (unique,
  backtracking-correct) match starting at the given position; `scanAll`
  mirrors the global (`/g`) scan of `String.prototype.match`.
-/

/-- The five risk levels of `types/index.ts`:
`type RiskLevel = 'NONE' | 'LOW' | 'MEDIUM' | 'HIGH' | 'CRITICAL'`. -/
inductive RiskLevel where
  | NONE
  | LOW
  | MEDIUM
  | HIGH
  | CRITICAL
deriving DecidableEq, Repr

/-- Provenance tag of a finding: `source: 'local' | 'prompt_security'`
(`local` is a Lean keyword, hence `localSrc`). -/
inductive Source where
  | localSrc
  | prompt_security
deriving DecidableEq, Repr

/-- `DetectedSecret` of `types/index.ts`.  `location` is a zero-based char
offset (the service only ever stores `indexOf` of a found substring, or `0`),
hence a `Nat`.  `confidence` is a JS number in `[0,1]`, modelled as `ℚ`. -/
structure DetectedSecret where
  type : String
  description : String
  value : String
  location : Nat
  confidence : ℚ
  riskLevel : RiskLevel
  source : Source
deriving DecidableEq, Repr

/-- JS `a ?? b` on optional values. -/
def jsOr {α : Type} (a b : Option α) : Option α :=
  match a with
  | some x => some x
  | none => b

/-- JS `v || dflt` for an optional string field: `undefined`, `null` and the
empty string all fall through to the default. -/
def jsOrStr (v : Option String) (dflt : String) : String :=
  match v with
  | some s => if s = "" then dflt else s
  | none => dflt

/-- `maskSecret` (source lines 349-354): length ≤ 8 masks entirely, otherwise
keep the first and last 4 characters (`substring(0, 4)`,
`'*'.repeat(length - 8)`, `substring(length - 4)`). -/
def maskSecret (secret : String) : String :=
  if secret.length ≤ 8 then
    ⟨List.replicate secret.length (Char.ofNat 42)⟩
  else
    ⟨secret.data.take 4 ++ List.replicate (secret.length - 8) (Char.ofNat 42)
      ++ secret.data.drop (secret.length - 4)⟩

/-- The mask character `'*'` (code point 42). -/
def maskChar : Char := Char.ofNat 42

/-- JS `haystack.includes(needle)` — substring containment. -/
def jsIncludes (s sub : String) : Bool :=
  decide (sub.data <:+: s.data)

/-- `mapCategoryToRiskLevel` (source lines 311-327). -/
def mapCategoryToRiskLevel (category entityType : String) : RiskLevel :=
  if category = "Access Tokens" then
    if jsIncludes entityType "AWS" then RiskLevel.CRITICAL
    else if jsIncludes entityType "GitHub" then RiskLevel.HIGH
    else RiskLevel.HIGH
  else if category = "Other" then
    if jsIncludes entityType "Password" then RiskLevel.MEDIUM
    else RiskLevel.MEDIUM
  else RiskLevel.HIGH

/-- One element of `findings.Secrets` in the Prompt Security payload; every
field is defensively optional (`secret?.entity_type` etc.). -/
structure PSFinding where
  entity_type : Option String
  category : Option String
  entity : Option String
deriving DecidableEq, Repr

/-- The `prompt` object of the payload.  `findingsSecrets` is
`findings.Secrets` when that path exists and is an array (`Array.isArray`),
`none` otherwise; `scoresSecretsScore` is `scores.Secrets.score`. -/
structure PSPrompt where
  findingsSecrets : Option (List PSFinding)
  action : Option String
  scoresSecretsScore : Option ℚ
deriving DecidableEq, Repr

/-- The `result` object of the payload. -/
structure PSResult where
  action : Option String
  prompt : Option PSPrompt
deriving DecidableEq, Repr

/-- The whole JSON body returned by the remote call, as far as
`parsePromptSecurityResponse` inspects it. -/
structure PSResponse where
  result : Option PSResult
  prompt : Option PSPrompt
deriving DecidableEq, Repr

/-- `anyData?.result?.prompt ?? anyData?.prompt ?? {}` (the empty-object
default behaves exactly like `none` under the optional chaining that
follows, so the result stays an `Option`). -/
def psResultPrompt (data : PSResponse) : Option PSPrompt :=
  jsOr (data.result.bind (fun r => r.prompt)) data.prompt

/-- The findings list: `Array.isArray(resultPrompt?.findings?.Secrets) ?
resultPrompt.findings.Secrets : []`. -/
def psFindings (data : PSResponse) : List PSFinding :=
  match (psResultPrompt data).bind (fun p => p.findingsSecrets) with
  | some l => l
  | none => []

/-- `anyData?.result?.action ?? resultPrompt?.action`. -/
def psAction (data : PSResponse) : Option String :=
  jsOr (data.result.bind (fun r => r.action))
    ((psResultPrompt data).bind (fun p => p.action))

/-- `resultPrompt?.scores?.Secrets?.score ?? 0.95`. -/
def psConfidence (data : PSResponse) : ℚ :=
  ((psResultPrompt data).bind (fun p => p.scoresSecretsScore)).getD (19 / 20)

/-- `parsePromptSecurityResponse` (source lines 278-306). -/
def parsePromptSecurityResponse (data : PSResponse) : List DetectedSecret :=
  let isBlocked := psAction data = some "block"
  (psFindings data).map (fun secret =>
    let entityType := jsOrStr secret.entity_type "Unknown"
    let category := jsOrStr secret.category "Other"
    { type := entityType
      description := entityType ++ " detected"
        ++ (if category = "" then "" else " in " ++ category)
      value := maskSecret (jsOrStr secret.entity "")
      location := 0
      confidence := psConfidence data
      riskLevel := if isBlocked then RiskLevel.CRITICAL
                   else mapCategoryToRiskLevel category entityType
      source := Source.prompt_security })

/-- `calculateRiskLevel` (source lines 333-343). -/
def calculateRiskLevel (secrets : List DetectedSecret) : RiskLevel :=
  if secrets.length = 0 then RiskLevel.NONE
  else
    let riskLevels := secrets.map (fun s => s.riskLevel)
    if riskLevels.contains RiskLevel.CRITICAL then RiskLevel.CRITICAL
    else if riskLevels.contains RiskLevel.HIGH then RiskLevel.HIGH
    else if riskLevels.contains RiskLevel.MEDIUM then RiskLevel.MEDIUM
    else RiskLevel.LOW

/-- The seen-set key `` `${secret.type}-${secret.location}` `` of
`deduplicateSecrets`. -/
def dedupKey (secret : DetectedSecret) : String :=
  secret.type ++ "-" ++ toString secret.location

/-- The filter loop of `deduplicateSecrets` with its mutable `seen` set made
explicit. -/
def deduplicateSecretsAux (seen : List String) :
    List DetectedSecret → List DetectedSecret
  | [] => []
  | secret :: rest =>
    if seen.contains (dedupKey secret) then deduplicateSecretsAux seen rest
    else secret :: deduplicateSecretsAux (dedupKey secret :: seen) rest

/-- `deduplicateSecrets` (source lines 360-370). -/
def deduplicateSecrets (secrets : List DetectedSecret) : List DetectedSecret :=
  deduplicateSecretsAux [] secrets

/-! ### The local rule table

Each regex of the `patterns` record is embedded as a matcher
`List Char → Option Nat` that returns the length of the match starting at the
head of the input, reproducing the JS engine's greedy/lazy backtracking
behaviour for that particular expression (analysed per pattern below), and
`none` when no match starts there.  `scanAll` then reproduces the global scan
of `text.match(regex)`: try every position left to right, and resume after
the end of each match. -/

/-- The scan loop, structurally recursive on a fuel argument so that it
reduces definitionally (each step consumes at least one character, so fuel
equal to the input length is always enough; the fuel-exhausted branch is
unreachable from `scanAll`). -/
def scanAllFuel (f : List Char → Option Nat) :
    Nat → List Char → List (List Char)
  | 0, _ => []
  | _ + 1, [] => []
  | fuel + 1, c :: t =>
    match f (c :: t) with
    | some (n + 1) => (c :: t.take n) :: scanAllFuel f fuel (t.drop n)
    | _ => scanAllFuel f fuel t

/-- Global scan of a matcher over the text, as JS `match` with the `/g` flag:
leftmost matches, resuming after each match.  (None of the embedded patterns
can match the empty string, so a `some 0` result is treated as no match.) -/
def scanAll (f : List Char → Option Nat) (s : List Char) : List (List Char) :=
  scanAllFuel f s.length s

/-- `[0-9A-Z]`. -/
def classUpperDigit (c : Char) : Bool := c.isUpper || c.isDigit

/-- `[A-Za-z0-9/+=]`. -/
def classAwsB64 (c : Char) : Bool :=
  c.isAlphanum || c == Char.ofNat 47 || c == '+' || c == '='

/-- `[A-Za-z0-9-_=]` (first two JWT segments). -/
def classJwt1 (c : Char) : Bool :=
  c.isAlphanum || c == '-' || c == '_' || c == '='

/-- `[A-Za-z0-9-_.+/=]` (JWT tail after the optional second dot). -/
def classJwt3 (c : Char) : Bool :=
  c.isAlphanum || c == '-' || c == '_' || c == '.' || c == '+'
    || c == Char.ofNat 47 || c == '='

/-- `[A-Z ]`. -/
def classUpperSpace (c : Char) : Bool := c.isUpper || c == ' '

/-- JS `\s` restricted to the ASCII whitespace characters (the service feeds
extracted printable text; the Unicode space classes are irrelevant here). -/
def isJsSpace (c : Char) : Bool :=
  c == ' ' || c == '\t' || c == '\n' || c == '\r'
    || c == Char.ofNat 11 || c == Char.ofNat 12

/-- `[^\s]`. -/
def classNonSpace (c : Char) : Bool := !(isJsSpace c)

/-- The single-quote character (code point 39). -/
def singleQuote : Char := Char.ofNat 39

/-- `['"]`. -/
def isQuote (c : Char) : Bool := c == singleQuote || c == '"'

/-- `[^'"]`. -/
def classNotQuote (c : Char) : Bool := !(isQuote c)

/-- `[:=]`. -/
def isColonEq (c : Char) : Bool := c == ':' || c == '='

/-- `[A-Za-z0-9-_]` (the api-key value class). -/
def classApiVal (c : Char) : Bool := c.isAlphanum || c == '-' || c == '_'

/-- Consume one character satisfying `p`, returning the rest. -/
def matchClass1 (p : Char → Bool) : List Char → Option (List Char)
  | c :: t => if p c then some t else none
  | [] => none

/-- `/AKIA[0-9A-Z]{16}/`: the literal, then exactly 16 class characters. -/
def awsAccessKeyTry (s : List Char) : Option Nat :=
  if "AKIA".data <+: s ∧ 16 ≤ (s.drop 4).length
      ∧ ((s.drop 4).take 16).all classUpperDigit = true
  then some 20 else none

/-- `/[A-Za-z0-9/+=]{40}/`: exactly 40 class characters. -/
def awsSecretKeyTry (s : List Char) : Option Nat :=
  if 40 ≤ s.length ∧ (s.take 40).all classAwsB64 = true
  then some 40 else none

/-- `/ghp_[A-Za-z0-9]{36}/`. -/
def githubTokenTry (s : List Char) : Option Nat :=
  if "ghp_".data <+: s ∧ 36 ≤ (s.drop 4).length
      ∧ ((s.drop 4).take 36).all Char.isAlphanum = true
  then some 40 else none

/-- `/eyJ[A-Za-z0-9-_=]+\.[A-Za-z0-9-_=]+\.?[A-Za-z0-9-_.+/=]*/`.

Greediness analysis: `.` is not in the first class, so the greedy `+` runs
are exact maximal runs and never backtrack; and since `.` *is* in the final
class, `\.?`+`[...]*` together consume exactly the maximal run of the final
class.  The match is `eyJ`, a nonempty run of `classJwt1`, a literal dot, a
second nonempty run of `classJwt1`, then the maximal (possibly empty) run of
`classJwt3`. -/
def jwtTokenTry (s : List Char) : Option Nat :=
  if "eyJ".data <+: s then
    let r0 := s.drop 3
    let n1 := (r0.takeWhile classJwt1).length
    let r1 := r0.drop n1
    if 1 ≤ n1 ∧ r1.take 1 = ['.'] then
      let r2 := r1.drop 1
      let n2 := (r2.takeWhile classJwt1).length
      if 1 ≤ n2 then
        let r3 := r2.drop n2
        let n3 := (r3.takeWhile classJwt3).length
        some (3 + n1 + 1 + n2 + n3)
      else none
    else none
  else none

/-- `[A-Z ]+PRIVATE KEY-----` at the head of `s`, greedy with backtracking:
the largest `k ≥ 1` of class characters such that the literal follows.
Returns the consumed length. -/
def upperSpaceThenMarker (s : List Char) : Option Nat :=
  let run := (s.takeWhile classUpperSpace).length
  match ((List.range run).map (fun i => run - i)).find?
      (fun k => "PRIVATE KEY-----".data <+: s.drop k) with
  | some k => some (k + 16)
  | none => none

/-- `-----END [A-Z ]+PRIVATE KEY-----` at the head of `s`. -/
def endDelimTry (s : List Char) : Option Nat :=
  if "-----END ".data <+: s then
    match upperSpaceThenMarker (s.drop 9) with
    | some m => some (9 + m)
    | none => none
  else none

/-- `/-----BEGIN [A-Z ]+PRIVATE KEY-----[\s\S]*?-----END [A-Z ]+PRIVATE KEY-----/`.

Backtracking order of the JS engine: the first `[A-Z ]+` tries its longest
run first (`k` descending); for each `k`, the lazy `[\s\S]*?` tries the
shortest gap first (`j` ascending); the first combination whose tail matches
wins. -/
def privateKeyTry (s : List Char) : Option Nat :=
  if "-----BEGIN ".data <+: s then
    let rest := s.drop 11
    let run := (rest.takeWhile classUpperSpace).length
    (((List.range run).map (fun i => run - i)).findSome? (fun k =>
      if "PRIVATE KEY-----".data <+: rest.drop k then
        let r2 := rest.drop (k + 16)
        match (List.range (r2.length + 1)).findSome? (fun j =>
            (endDelimTry (r2.drop j)).map (fun m => j + m)) with
        | some jm => some (11 + k + 16 + jm)
        | none => none
      else none))
  else none

/-- `/(mongodb|mysql|postgresql|redis):\/\/[^\s]+/`: alternatives in source
order, then the literal `://`, then a nonempty greedy run of non-space. -/
def databaseUrlTry (s : List Char) : Option Nat :=
  ["mongodb", "mysql", "postgresql", "redis"].findSome? (fun alt =>
    if (alt ++ "://").data <+: s then
      let n := ((s.drop (alt.length + 3)).takeWhile classNonSpace).length
      if 1 ≤ n then some (alt.length + 3 + n) else none
    else none)

/-- `/[Aa][Pp][Ii][_]?[Kk][Ee][Yy]['"]*\s*[:=]\s*['"][A-Za-z0-9-_]{20,}['"]/`.

The optional `[_]?` is deterministic (`[Kk]` can never match `_`), and each
greedy run is followed by a character outside its class, so no backtracking
arises.  Returns the consumed length as the difference of lengths. -/
def apiKeyTry (s : List Char) : Option Nat :=
  (matchClass1 (fun c => c == 'A' || c == 'a') s).bind fun s1 =>
  (matchClass1 (fun c => c == 'P' || c == 'p') s1).bind fun s2 =>
  (matchClass1 (fun c => c == 'I' || c == 'i') s2).bind fun s3 =>
  let s4 := if s3.take 1 = ['_'] then s3.drop 1 else s3
  (matchClass1 (fun c => c == 'K' || c == 'k') s4).bind fun s5 =>
  (matchClass1 (fun c => c == 'E' || c == 'e') s5).bind fun s6 =>
  (matchClass1 (fun c => c == 'Y' || c == 'y') s6).bind fun s7 =>
  let s8 := s7.drop (s7.takeWhile isQuote).length
  let s9 := s8.drop (s8.takeWhile isJsSpace).length
  (matchClass1 isColonEq s9).bind fun s10 =>
  let s11 := s10.drop (s10.takeWhile isJsSpace).length
  (matchClass1 isQuote s11).bind fun s12 =>
  let v := (s12.takeWhile classApiVal).length
  if 20 ≤ v then
    (matchClass1 isQuote (s12.drop v)).bind fun s13 =>
    some (s.length - s13.length)
  else none

/-- `/[Pp][Aa][Ss][Ss][Ww][Oo][Rr][Dd]['"]*\s*[:=]\s*['"][^'"]{6,}['"]/`.
Same deterministic analysis as `apiKeyTry`. -/
def passwordTry (s : List Char) : Option Nat :=
  (matchClass1 (fun c => c == 'P' || c == 'p') s).bind fun s1 =>
  (matchClass1 (fun c => c == 'A' || c == 'a') s1).bind fun s2 =>
  (matchClass1 (fun c => c == 'S' || c == 's') s2).bind fun s3 =>
  (matchClass1 (fun c => c == 'S' || c == 's') s3).bind fun s4 =>
  (matchClass1 (fun c => c == 'W' || c == 'w') s4).bind fun s5 =>
  (matchClass1 (fun c => c == 'O' || c == 'o') s5).bind fun s6 =>
  (matchClass1 (fun c => c == 'R' || c == 'r') s6).bind fun s7 =>
  (matchClass1 (fun c => c == 'D' || c == 'd') s7).bind fun s8 =>
  let s9 := s8.drop (s8.takeWhile isQuote).length
  let s10 := s9.drop (s9.takeWhile isJsSpace).length
  (matchClass1 isColonEq s10).bind fun s11 =>
  let s12 := s11.drop (s11.takeWhile isJsSpace).length
  (matchClass1 isQuote s12).bind fun s13 =>
  let v := (s13.takeWhile classNotQuote).length
  if 6 ≤ v then
    (matchClass1 isQuote (s13.drop v)).bind fun s14 =>
    some (s.length - s14.length)
  else none

/-- One entry of the `patterns` record: the embedded regex matcher plus the
`type`, `description` and `riskLevel` fields. -/
structure SecretPattern where
  tryMatch : List Char → Option Nat
  type : String
  description : String
  riskLevel : RiskLevel

/-- `text.match(pattern.regex)` for one rule (`null` becomes `[]`). -/
def jsMatch (f : List Char → Option Nat) (text : String) : List String :=
  (scanAll f text.data).map (fun l => ⟨l⟩)

/-- The `patterns` record in `Object.entries` (insertion) order. -/
def patterns : List SecretPattern :=
  [ { tryMatch := awsAccessKeyTry, type := "AWS Access Key",
      description := "AWS Access Key ID detected", riskLevel := RiskLevel.HIGH },
    { tryMatch := awsSecretKeyTry, type := "AWS Secret Key",
      description := "Potential AWS Secret Access Key", riskLevel := RiskLevel.HIGH },
    { tryMatch := githubTokenTry, type := "GitHub Token",
      description := "GitHub Personal Access Token", riskLevel := RiskLevel.HIGH },
    { tryMatch := jwtTokenTry, type := "JWT Token",
      description := "JSON Web Token detected", riskLevel := RiskLevel.MEDIUM },
    { tryMatch := privateKeyTry, type := "Private Key",
      description := "Private key detected", riskLevel := RiskLevel.CRITICAL },
    { tryMatch := databaseUrlTry, type := "Database URL",
      description := "Database connection string", riskLevel := RiskLevel.HIGH },
    { tryMatch := apiKeyTry, type := "API Key",
      description := "API key detected", riskLevel := RiskLevel.MEDIUM },
    { tryMatch := passwordTry, type := "Password",
      description := "Password detected", riskLevel := RiskLevel.MEDIUM } ]

/-- JS `text.indexOf(m)`: offset of the first occurrence.  The service only
calls it on a substring that was just matched, so the not-found case (JS
`-1`) is unreachable; it is given the junk value `text.length` here so that
the embedding stays `Nat`-valued. -/
def jsIndexOf (text m : String) : Nat :=
  match (List.range (text.length + 1)).find?
      (fun i => m.data <+: text.data.drop i) with
  | some i => i
  | none => text.length

/-- `detectWithLocalPatterns` (source lines 212-234). -/
def detectWithLocalPatterns (text : String) : List DetectedSecret :=
  patterns.flatMap (fun pattern =>
    (jsMatch pattern.tryMatch text).map (fun m =>
      { type := pattern.type
        description := pattern.description
        value := maskSecret m
        location := jsIndexOf text m
        confidence := 4 / 5
        riskLevel := pattern.riskLevel
        source := Source.localSrc }))

/-- Every outcome of the remote call as seen by `detectWithPromptSecurity`:
missing configuration, a rejected `axios.post` (connection refused, timeout,
non-2xx, ...-- carrying the error code), or a resolved response body. -/
inductive RemoteOutcome where
  | notConfigured
  | requestError (code : String)
  | response (data : PSResponse)

/-- `detectWithPromptSecurity` (source lines 240-272): a thrown exception is
`Except.error` with the thrown message. -/
def detectWithPromptSecurity (text : String) (outcome : RemoteOutcome) :
    Except String (List DetectedSecret) :=
  let _ := text
  match outcome with
  | RemoteOutcome.notConfigured =>
      Except.error "Prompt Security API not configured"
  | RemoteOutcome.requestError code =>
      Except.error
        (if code = "ECONNREFUSED" || code = "ETIMEDOUT"
         then "API service unavailable" else code)
  | RemoteOutcome.response data =>
      Except.ok (parsePromptSecurityResponse data)

/-- `detectSecrets` (source lines 188-206): remote findings when the remote
path succeeds, the local fallback when it throws, then deduplication. -/
def detectSecrets (outcome : RemoteOutcome) (text : String) :
    List DetectedSecret :=
  let secrets :=
    match detectWithPromptSecurity text outcome with
    | Except.ok apiSecrets => apiSecrets
    | Except.error _ => detectWithLocalPatterns text
  deduplicateSecrets secrets

/-! ### Spec-side reference definitions

These are stated from the specification's words, to be compared with the
embedded source functions (refinement-style claims). -/

/-- Numeric severity of a risk level under the spec's fixed ordering
`NONE < LOW < MEDIUM < HIGH < CRITICAL`. -/
def riskRank : RiskLevel → Nat
  | RiskLevel.NONE => 0
  | RiskLevel.LOW => 1
  | RiskLevel.MEDIUM => 2
  | RiskLevel.HIGH => 3
  | RiskLevel.CRITICAL => 4

/-- Maximum of two risk levels under the spec ordering. -/
def riskMax (a b : RiskLevel) : RiskLevel :=
  if riskRank a < riskRank b then b else a

/-- Maximum severity present in a list of levels (`NONE` if empty). -/
def maxRiskOf (ls : List RiskLevel) : RiskLevel :=
  ls.foldr riskMax RiskLevel.NONE

/-- Modelled from the spec: `aggregateRisk` "returns `NONE` for an empty
input; otherwise the maximum severity level present across all `riskLevel`
values". -/
def aggregateRiskSpec (secrets : List DetectedSecret) : RiskLevel :=
  if secrets.isEmpty then RiskLevel.NONE
  else maxRiskOf (secrets.map (fun s => s.riskLevel))

/-- The amended statement: as `aggregateRiskSpec`, except that the result of
a non-empty input is never below `LOW` (a non-empty list whose findings all
have level `NONE` aggregates to `LOW`). -/
def aggregateRiskAmended (secrets : List DetectedSecret) : RiskLevel :=
  if secrets.isEmpty then RiskLevel.NONE
  else riskMax RiskLevel.LOW (maxRiskOf (secrets.map (fun s => s.riskLevel)))

/-- Modelled from the spec: the category/entity-type risk table of §4.1
("Access Tokens": `CRITICAL` iff the entity type mentions "AWS", else
`HIGH`; "Other": `MEDIUM`; anything else: `HIGH`). -/
def mapCategoryToRiskLevelSpec (category entityType : String) : RiskLevel :=
  if category = "Access Tokens" then
    if jsIncludes entityType "AWS" then RiskLevel.CRITICAL else RiskLevel.HIGH
  else if category = "Other" then RiskLevel.MEDIUM
  else RiskLevel.HIGH

/-- Modelled from the spec: masking keeps the first and last 4 characters of
a long value and replaces the interior by `length − 8` mask characters;
short values (≤ 8) are fully redacted at the same length. -/
def maskSecretSpec (secret : String) : String :=
  if secret.length ≤ 8 then
    ⟨List.replicate secret.length maskChar⟩
  else
    ⟨secret.data.take 4 ++ List.replicate (secret.length - 8) maskChar
      ++ secret.data.drop (secret.length - 4)⟩

/-- The spec's deduplication loop, keyed by the `(type, location)` pair
itself: "iterate findings in the order produced; keep the first occurrence
of each distinct `(type, location)` key, drop later duplicates". -/
def dedupByPairAux (seen : List (String × Nat)) :
    List DetectedSecret → List DetectedSecret
  | [] => []
  | secret :: rest =>
    if (secret.type, secret.location) ∈ seen then dedupByPairAux seen rest
    else secret :: dedupByPairAux ((secret.type, secret.location) :: seen) rest

/-- Modelled from the spec: first-occurrence filter on `(type, location)`. -/
def dedupByPair (secrets : List DetectedSecret) : List DetectedSecret :=
  dedupByPairAux [] secrets

/-! ### Decimal rendering of `Nat`

`dedupKey` renders `location` with JS template interpolation; the embedding
uses `toString : Nat → String`.  To reason about key collisions we relate it
to a structurally recursive decimal printer and prove that printer injective
and dash-free. -/

/-- Structural decimal printer, most significant digit first. -/
def natDigits (n : Nat) : List Char :=
  if _h : n < 10 then [Nat.digitChar n]
  else natDigits (n / 10) ++ [Nat.digitChar (n % 10)]
decreasing_by exact Nat.div_lt_self (by omega) (by omega)

theorem toDigitsCore_eq_natDigits :
    ∀ (f n : Nat) (ds : List Char), n < f →
      Nat.toDigitsCore 10 f n ds = natDigits n ++ ds := by
  intro f
  induction f with
  | zero => intro n ds h; exact absurd h (by omega)
  | succ f ih =>
    intro n ds h
    rw [Nat.toDigitsCore]
    by_cases h10 : n < 10
    · have hdiv : n / 10 = 0 := Nat.div_eq_of_lt h10
      rw [natDigits]
      simp [hdiv, h10, Nat.mod_eq_of_lt h10]
    · have hdiv : ¬ n / 10 = 0 := by
        intro h0
        exact h10 (by omega : n < 10)
      have hlt : n / 10 < f := by
        have := Nat.div_lt_self (by omega : 0 < n) (by omega : 1 < 10)
        omega
      rw [natDigits]
      simp only [h10, dite_false, hdiv, if_false]
      rw [ih (n / 10) (Nat.digitChar (n % 10) :: ds) hlt]
      simp

theorem data_toString_nat (n : Nat) : (toString n).data = natDigits n := by
  show (Nat.repr n).data = natDigits n
  unfold Nat.repr Nat.toDigits
  rw [toDigitsCore_eq_natDigits (n + 1) n [] (Nat.lt_succ_self n)]
  simp [List.asString]

theorem digitChar_ne_dash : ∀ n < 10, Nat.digitChar n ≠ '-' := by decide

theorem digitChar_inj :
    ∀ a < 10, ∀ b < 10, Nat.digitChar a = Nat.digitChar b → a = b := by decide

theorem natDigits_ne_nil (n : Nat) : natDigits n ≠ [] := by
  rw [natDigits]
  split
  · simp
  · simp

theorem natDigits_ne_dash : ∀ (n : Nat), ∀ c ∈ natDigits n, c ≠ '-' := by
  intro n
  induction n using Nat.strong_induction_on with
  | _ n ih =>
    rw [natDigits]
    split
    · next h =>
      intro c hc
      simp at hc
      subst hc
      exact digitChar_ne_dash n h
    · next h =>
      intro c hc
      rcases List.mem_append.mp hc with h1 | h2
      · exact ih (n / 10) (Nat.div_lt_self (by omega) (by omega)) c h1
      · simp at h2
        subst h2
        exact digitChar_ne_dash (n % 10) (Nat.mod_lt n (by omega))

theorem natDigits_of_lt {n : Nat} (h : n < 10) :
    natDigits n = [Nat.digitChar n] := by
  rw [natDigits]
  simp [h]

theorem natDigits_of_ge {n : Nat} (h : ¬ n < 10) :
    natDigits n = natDigits (n / 10) ++ [Nat.digitChar (n % 10)] := by
  conv_lhs => rw [natDigits]
  simp [h]

theorem natDigits_inj : ∀ m n : Nat, natDigits m = natDigits n → m = n := by
  intro m
  induction m using Nat.strong_induction_on with
  | _ m ih =>
    intro n h
    by_cases hm : m < 10 <;> by_cases hn : n < 10
    · rw [natDigits_of_lt hm, natDigits_of_lt hn] at h
      simp only [List.cons.injEq, and_true] at h
      exact digitChar_inj m hm n hn h
    · exfalso
      rw [natDigits_of_lt hm, natDigits_of_ge hn] at h
      have hl := congrArg List.length h
      simp at hl
      exact natDigits_ne_nil (n / 10) hl
    · exfalso
      rw [natDigits_of_ge hm, natDigits_of_lt hn] at h
      have hl := congrArg List.length h
      simp at hl
      exact natDigits_ne_nil (m / 10) hl
    · rw [natDigits_of_ge hm, natDigits_of_ge hn] at h
      have hr := congrArg List.reverse h
      simp only [List.reverse_append, List.reverse_cons, List.reverse_nil,
        List.nil_append, List.cons_append, List.singleton_append] at hr
      injection hr with h1 h2
      have hdig : m % 10 = n % 10 :=
        digitChar_inj (m % 10) (Nat.mod_lt m (by omega)) (n % 10)
          (Nat.mod_lt n (by omega)) h1
      have hdigits : natDigits (m / 10) = natDigits (n / 10) :=
        List.reverse_injective h2
      have hdiv : m / 10 = n / 10 :=
        ih (m / 10) (Nat.div_lt_self (by omega) (by omega)) (n / 10) hdigits
      omega

/-- Splitting at the dash separator is unambiguous when the part after the
dash is dash-free. -/
theorem dash_sep_inj :
    ∀ (a1 a2 b1 b2 : List Char), (∀ c ∈ b1, c ≠ '-') → (∀ c ∈ b2, c ≠ '-') →
      a1 ++ '-' :: b1 = a2 ++ '-' :: b2 → a1 = a2 ∧ b1 = b2 := by
  intro a1
  induction a1 with
  | nil =>
    intro a2 b1 b2 hb1 hb2 h
    cases a2 with
    | nil =>
      simp only [List.nil_append, List.cons.injEq, true_and] at h ⊢
      exact h
    | cons x t =>
      exfalso
      simp only [List.nil_append, List.cons_append, List.cons.injEq] at h
      obtain ⟨hx, hrest⟩ := h
      exact hb1 '-' (hrest ▸ List.mem_append_right t (List.mem_cons_self _ _)) rfl
  | cons x t ih =>
    intro a2 b1 b2 hb1 hb2 h
    cases a2 with
    | nil =>
      exfalso
      simp only [List.nil_append, List.cons_append, List.cons.injEq] at h
      obtain ⟨hx, hrest⟩ := h
      exact hb2 '-' (hrest ▸ List.mem_append_right t (List.mem_cons_self _ _)) rfl
    | cons y u =>
      simp only [List.cons_append, List.cons.injEq] at h
      obtain ⟨hxy, hrest⟩ := h
      obtain ⟨h1, h2⟩ := ih u b1 b2 hb1 hb2 hrest
      exact ⟨by rw [hxy, h1], h2⟩

/-- The string key `` `${type}-${location}` `` identifies exactly the
`(type, location)` pair: locations render dash-free, so the key cannot
collide across distinct pairs. -/
theorem pairKey_inj (t1 t2 : String) (n1 n2 : Nat) :
    t1 ++ "-" ++ toString n1 = t2 ++ "-" ++ toString n2 →
      t1 = t2 ∧ n1 = n2 := by
  intro h
  have hdata := congrArg String.data h
  simp only [String.data_append] at hdata
  have hsep : t1.data ++ '-' :: (toString n1).data
      = t2.data ++ '-' :: (toString n2).data := by
    simpa using hdata
  have hfree1 : ∀ c ∈ (toString n1).data, c ≠ '-' := by
    rw [data_toString_nat]; exact natDigits_ne_dash n1
  have hfree2 : ∀ c ∈ (toString n2).data, c ≠ '-' := by
    rw [data_toString_nat]; exact natDigits_ne_dash n2
  obtain ⟨h1, h2⟩ := dash_sep_inj _ _ _ _ hfree1 hfree2 hsep
  refine ⟨String.ext h1, ?_⟩
  apply natDigits_inj
  rw [← data_toString_nat, ← data_toString_nat, h2]

/-- `dedupKey` determines the `(type, location)` pair and vice versa. -/
theorem dedupKey_inj (a b : DetectedSecret) :
    dedupKey a = dedupKey b ↔ a.type = b.type ∧ a.location = b.location := by
  constructor
  · exact pairKey_inj a.type b.type a.location b.location
  · intro ⟨h1, h2⟩
    simp [dedupKey, h1, h2]

/-- The source loop and the spec's pair-keyed loop agree, provided the
string seen-set is the image of the pair seen-set. -/
theorem deduplicateSecretsAux_eq_pairAux :
    ∀ (l : List DetectedSecret) (seen : List (String × Nat)),
      deduplicateSecretsAux
        (seen.map (fun p => p.1 ++ "-" ++ toString p.2)) l
        = dedupByPairAux seen l := by
  intro l
  induction l with
  | nil => intro seen; rfl
  | cons s rest ih =>
    intro seen
    have hmem : (seen.map (fun p => p.1 ++ "-" ++ toString p.2)).contains
        (dedupKey s) = true ↔ (s.type, s.location) ∈ seen := by
      constructor
      · intro h
        have h' : dedupKey s ∈ seen.map (fun p => p.1 ++ "-" ++ toString p.2) :=
          List.elem_iff.mp h
        obtain ⟨p, hp, hkey⟩ := List.mem_map.mp h'
        obtain ⟨ht, hl⟩ := pairKey_inj p.1 s.type p.2 s.location hkey
        have hps : p = (s.type, s.location) := by
          cases p
          simp only at ht hl
          simp [ht, hl]
        exact hps ▸ hp
      · intro h
        exact List.elem_iff.mpr
          (List.mem_map.mpr ⟨(s.type, s.location), h, rfl⟩)
    rw [deduplicateSecretsAux, dedupByPairAux]
    by_cases h : (s.type, s.location) ∈ seen
    · have hc : (seen.map (fun p => p.1 ++ "-" ++ toString p.2)).contains
          (dedupKey s) = true := hmem.mpr h
      rw [hc, if_pos rfl, if_pos h]
      exact ih seen
    · have hc : (seen.map (fun p => p.1 ++ "-" ++ toString p.2)).contains
          (dedupKey s) = false := by
        rcases Bool.eq_false_or_eq_true
          ((seen.map (fun p => p.1 ++ "-" ++ toString p.2)).contains
            (dedupKey s)) with ht | hf
        · exact absurd (hmem.mp ht) h
        · exact hf
      rw [hc, if_neg Bool.false_ne_true, if_neg h]
      congr 1
      have hseen : dedupKey s :: seen.map (fun p => p.1 ++ "-" ++ toString p.2)
          = (((s.type, s.location) :: seen).map
              (fun p => p.1 ++ "-" ++ toString p.2)) := by
        simp [dedupKey]
      rw [hseen]
      exact ih ((s.type, s.location) :: seen)

/-- `deduplicateSecrets` implements the spec's first-occurrence filter on
the `(type, location)` pair. -/
theorem deduplicateSecrets_eq_dedupByPair (l : List DetectedSecret) :
    deduplicateSecrets l = dedupByPair l :=
  deduplicateSecretsAux_eq_pairAux l []

theorem dedupByPairAux_sublist :
    ∀ (l : List DetectedSecret) (seen : List (String × Nat)),
      (dedupByPairAux seen l).Sublist l := by
  intro l
  induction l with
  | nil => intro seen; simp [dedupByPairAux]
  | cons s rest ih =>
    intro seen
    rw [dedupByPairAux]
    split
    · exact (ih seen).trans (List.sublist_cons_self s rest)
    · exact (ih _).cons₂ s

theorem dedupByPairAux_not_seen :
    ∀ (l : List DetectedSecret) (seen : List (String × Nat)) (s : DetectedSecret),
      s ∈ dedupByPairAux seen l → (s.type, s.location) ∉ seen := by
  intro l
  induction l with
  | nil => intro seen s hs; simp [dedupByPairAux] at hs
  | cons x rest ih =>
    intro seen s hs
    rw [dedupByPairAux] at hs
    split at hs
    · exact ih seen s hs
    · rcases List.mem_cons.mp hs with rfl | hs'
      · next hnot => exact hnot
      · intro hmem
        exact ih _ s hs' (List.mem_cons_of_mem _ hmem)

theorem dedupByPairAux_pairwise :
    ∀ (l : List DetectedSecret) (seen : List (String × Nat)),
      (dedupByPairAux seen l).Pairwise
        (fun a b => (a.type, a.location) ≠ (b.type, b.location)) := by
  intro l
  induction l with
  | nil => intro seen; simp [dedupByPairAux]
  | cons x rest ih =>
    intro seen
    rw [dedupByPairAux]
    split
    · exact ih seen
    · refine List.Pairwise.cons ?_ (ih _)
      intro b hb hpair
      have := dedupByPairAux_not_seen rest _ b hb
      exact this (hpair ▸ List.mem_cons_self _ _)

/-- The deduplicated output is an order-preserving selection of the input
with pairwise-distinct `(type, location)` pairs. -/
theorem deduplicateSecrets_sublist (l : List DetectedSecret) :
    (deduplicateSecrets l).Sublist l := by
  rw [deduplicateSecrets_eq_dedupByPair]
  exact dedupByPairAux_sublist l []

theorem deduplicateSecrets_pairwise (l : List DetectedSecret) :
    (deduplicateSecrets l).Pairwise
      (fun a b => (a.type, a.location) ≠ (b.type, b.location)) := by
  rw [deduplicateSecrets_eq_dedupByPair]
  exact dedupByPairAux_pairwise l []

theorem contains_eq_false_of_not_mem {α : Type} [BEq α] [LawfulBEq α]
    {l : List α} {a : α} (h : a ∉ l) : l.contains a = false := by
  cases hce : l.contains a with
  | false => rfl
  | true => exact absurd (List.elem_iff.mp hce) h

theorem contains_eq_true_of_mem {α : Type} [BEq α] [LawfulBEq α]
    {l : List α} {a : α} (h : a ∈ l) : l.contains a = true :=
  List.elem_iff.mpr h

theorem riskRank_le_riskMax_left (a b : RiskLevel) :
    riskRank a ≤ riskRank (riskMax a b) := by
  unfold riskMax
  split <;> omega

theorem riskRank_le_riskMax_right (a b : RiskLevel) :
    riskRank b ≤ riskRank (riskMax a b) := by
  unfold riskMax
  split <;> omega

theorem riskMax_cases (a b : RiskLevel) : riskMax a b = a ∨ riskMax a b = b := by
  unfold riskMax
  split
  · exact Or.inr rfl
  · exact Or.inl rfl

theorem maxRiskOf_ub :
    ∀ (ls : List RiskLevel) (a : RiskLevel), a ∈ ls →
      riskRank a ≤ riskRank (maxRiskOf ls) := by
  intro ls
  induction ls with
  | nil => intro a ha; simp at ha
  | cons c t ih =>
    intro a ha
    rcases List.mem_cons.mp ha with rfl | ha'
    · exact riskRank_le_riskMax_left a (maxRiskOf t)
    · exact (ih a ha').trans (riskRank_le_riskMax_right c (maxRiskOf t))

theorem maxRiskOf_mem_or :
    ∀ ls : List RiskLevel, maxRiskOf ls = RiskLevel.NONE ∨ maxRiskOf ls ∈ ls := by
  intro ls
  induction ls with
  | nil => exact Or.inl rfl
  | cons c t ih =>
    have hstep : maxRiskOf (c :: t) = riskMax c (maxRiskOf t) := rfl
    rcases riskMax_cases c (maxRiskOf t) with h | h
    · exact Or.inr (by rw [hstep, h]; exact List.mem_cons_self c t)
    · rcases ih with h2 | h2
      · exact Or.inl (by rw [hstep, h, h2])
      · exact Or.inr (by rw [hstep, h]; exact List.mem_cons_of_mem c h2)

/-- `calculateRiskLevel` agrees with the amended aggregation: `NONE` on the
empty list, otherwise the maximum present, floored at `LOW`. -/
theorem calculateRiskLevel_eq_amended (l : List DetectedSecret) :
    calculateRiskLevel l = aggregateRiskAmended l := by
  cases l with
  | nil => rfl
  | cons s rest =>
    unfold calculateRiskLevel aggregateRiskAmended
    simp only [List.length_cons, Nat.succ_ne_zero, if_false, List.isEmpty_cons,
      Bool.false_eq_true]
    set ls := (s :: rest).map (fun x => x.riskLevel) with hls
    set M := maxRiskOf ls with hM
    by_cases hC : RiskLevel.CRITICAL ∈ ls
    · rw [contains_eq_true_of_mem hC, if_pos rfl]
      have h1 : 4 ≤ riskRank M := maxRiskOf_ub ls _ hC
      have hM4 : M = RiskLevel.CRITICAL := by
        rcases hMc : M with _ | _ | _ | _ | _ <;> rw [hMc] at h1 <;>
          first | rfl | (exfalso; simp [riskRank] at h1)
      rw [hM4]
      rfl
    · rw [contains_eq_false_of_not_mem hC, if_neg Bool.false_ne_true]
      by_cases hH : RiskLevel.HIGH ∈ ls
      · rw [contains_eq_true_of_mem hH, if_pos rfl]
        have h1 : 3 ≤ riskRank M := maxRiskOf_ub ls _ hH
        have hMh : M = RiskLevel.HIGH := by
          rcases maxRiskOf_mem_or ls with h2 | h2
          · rw [← hM] at h2; rw [h2] at h1; simp [riskRank] at h1
          · rw [← hM] at h2
            rcases hMc : M with _ | _ | _ | _ | _ <;> rw [hMc] at h1 h2 <;>
              first
                | rfl
                | (exact absurd h2 hC)
                | (simp [riskRank] at h1)
        rw [hMh]
        rfl
      · rw [contains_eq_false_of_not_mem hH, if_neg Bool.false_ne_true]
        by_cases hMed : RiskLevel.MEDIUM ∈ ls
        · rw [contains_eq_true_of_mem hMed, if_pos rfl]
          have h1 : 2 ≤ riskRank M := maxRiskOf_ub ls _ hMed
          have hMm : M = RiskLevel.MEDIUM := by
            rcases maxRiskOf_mem_or ls with h2 | h2
            · rw [← hM] at h2; rw [h2] at h1; simp [riskRank] at h1
            · rw [← hM] at h2
              rcases hMc : M with _ | _ | _ | _ | _ <;> rw [hMc] at h1 h2 <;>
                first
                  | rfl
                  | (exact absurd h2 hC)
                  | (exact absurd h2 hH)
                  | (simp [riskRank] at h1)
          rw [hMm]
          rfl
        · rw [contains_eq_false_of_not_mem hMed, if_neg Bool.false_ne_true]
          have hrank : riskRank M ≤ 1 := by
            rcases maxRiskOf_mem_or ls with h2 | h2 <;> rw [← hM] at h2
            · rw [h2]; decide
            · rcases hMc : M with _ | _ | _ | _ | _ <;> rw [hMc] at h2 <;>
                first
                  | decide
                  | (exact absurd h2 hC)
                  | (exact absurd h2 hH)
                  | (exact absurd h2 hMed)
          unfold riskMax
          rw [if_neg (by have hone : riskRank RiskLevel.LOW = 1 := rfl; omega)]

theorem isPrefix_split {l1 l : List Char} (h : l1 <+: l) :
    l = l1 ++ l.drop l1.length := by
  obtain ⟨t, ht⟩ := h
  rw [← ht, List.drop_left]

theorem take_one_eq {l : List Char} {c : Char} (h : l.take 1 = [c]) :
    l = c :: l.drop 1 := by
  cases l with
  | nil => simp at h
  | cons x xs =>
    simp only [List.take_succ_cons, List.take_zero, List.cons.injEq] at h
    simp [h.1]

theorem takeWhile_all {p : Char → Bool} (l : List Char) :
    (l.takeWhile p).all p = true :=
  List.all_eq_true.mpr (fun _ hx => List.mem_takeWhile_imp hx)

/-- Every string reported by the global scan is produced by the matcher at
some position: it is `u.take (n+1)` for a suffix `u` where the matcher
returned length `n+1`. -/
theorem mem_scanAllFuel (f : List Char → Option Nat) :
    ∀ (fuel : Nat) (s : List Char), ∀ m ∈ scanAllFuel f fuel s,
      ∃ u n, f u = some (n + 1) ∧ m = u.take (n + 1) := by
  intro fuel
  induction fuel with
  | zero =>
    intro s m hm
    simp [scanAllFuel] at hm
  | succ k ih =>
    intro s m hm
    cases s with
    | nil =>
      simp [scanAllFuel] at hm
    | cons c t =>
      simp only [scanAllFuel] at hm
      rcases hf : f (c :: t) with _ | n
      · rw [hf] at hm
        exact ih t m hm
      · cases n with
        | zero =>
          rw [hf] at hm
          exact ih t m hm
        | succ n0 =>
          rw [hf] at hm
          simp only [List.mem_cons] at hm
          rcases hm with rfl | hm'
          · exact ⟨c :: t, n0, hf, by simp⟩
          · exact ih (t.drop n0) m hm'

theorem mem_scanAll_of_mem (f : List Char → Option Nat) (s m : List Char)
    (hm : m ∈ scanAll f s) :
    ∃ u n, f u = some (n + 1) ∧ m = u.take (n + 1) :=
  mem_scanAllFuel f s.length s m hm

/-- Structure of every match of the embedded JWT rule: `eyJ`, a nonempty
first-class run, a literal dot, a second nonempty run, then a (possibly
empty, possibly dotted) tail run. -/
theorem jwtTokenTry_decomp (u : List Char) (L : Nat)
    (h : jwtTokenTry u = some L) :
    ∃ a b c, u.take L = "eyJ".data ++ a ++ '.' :: (b ++ c) ∧ a ≠ [] ∧ b ≠ []
      ∧ a.all classJwt1 = true ∧ b.all classJwt1 = true
      ∧ c.all classJwt3 = true := by
  simp only [jwtTokenTry] at h
  split at h
  case isFalse => simp at h
  case isTrue hpre =>
    set a := (u.drop 3).takeWhile classJwt1 with haDef
    set r1 := (u.drop 3).drop a.length with hr1Def
    split at h
    case isFalse => simp at h
    case isTrue hcond1 =>
      set b := (r1.drop 1).takeWhile classJwt1 with hbDef
      set r3 := (r1.drop 1).drop b.length with hr3Def
      split at h
      case isFalse => simp at h
      case isTrue hcond2 =>
        set c := r3.takeWhile classJwt3 with hcDef
        have hL : 3 + a.length + 1 + b.length + c.length = L :=
          Option.some.inj h
        obtain ⟨hn1, hdot⟩ := hcond1
        refine ⟨a, b, c, ?_, ?_, ?_, ?_, ?_, ?_⟩
        · have h0 : u = "eyJ".data ++ u.drop 3 := by
            have h3 : ("eyJ".data).length = 3 := rfl
            rw [← h3]
            exact isPrefix_split hpre
          have ha : u.drop 3 = a ++ r1 := isPrefix_split (List.takeWhile_prefix _)
          have hd : r1 = '.' :: r1.drop 1 := take_one_eq hdot
          have hb2 : r1.drop 1 = b ++ r3 := isPrefix_split (List.takeWhile_prefix _)
          have hc2 : r3 = c ++ r3.drop c.length := isPrefix_split (List.takeWhile_prefix _)
          have hu : u = ("eyJ".data ++ a ++ '.' :: (b ++ c)) ++ r3.drop c.length := by
            rw [h0]
            conv_lhs => rw [ha, hd, hb2, hc2]
            simp [List.append_assoc]
          rw [hu]
          refine List.take_left' ?_
          simp only [List.length_append, List.length_cons, List.length_nil]
          omega
        · exact List.ne_nil_of_length_pos (by omega)
        · exact List.ne_nil_of_length_pos (by omega)
        · exact takeWhile_all _
        · exact takeWhile_all _
        · exact takeWhile_all _

theorem detectSecrets_of_error {outcome : RemoteOutcome} {text : String}
    {msg : String}
    (h : detectWithPromptSecurity text outcome = Except.error msg) :
    detectSecrets outcome text
      = deduplicateSecrets (detectWithLocalPatterns text) := by
  simp only [detectSecrets, h]

theorem detectSecrets_of_ok {outcome : RemoteOutcome} {text : String}
    {l : List DetectedSecret}
    (h : detectWithPromptSecurity text outcome = Except.ok l) :
    detectSecrets outcome text = deduplicateSecrets l := by
  simp only [detectSecrets, h]

theorem mem_detectWithLocalPatterns {text : String} {f : DetectedSecret} :
    f ∈ detectWithLocalPatterns text ↔
      ∃ p ∈ patterns, ∃ m ∈ jsMatch p.tryMatch text,
        f = { type := p.type, description := p.description,
              value := maskSecret m, location := jsIndexOf text m,
              confidence := 4 / 5, riskLevel := p.riskLevel,
              source := Source.localSrc } := by
  simp only [detectWithLocalPatterns, List.mem_flatMap, List.mem_map]
  constructor
  · rintro ⟨p, hp, m, hm, rfl⟩
    exact ⟨p, hp, m, hm, rfl⟩
  · rintro ⟨p, hp, m, hm, rfl⟩
    exact ⟨p, hp, m, hm, rfl⟩

theorem local_source {text : String} {f : DetectedSecret}
    (hf : f ∈ detectWithLocalPatterns text) : f.source = Source.localSrc := by
  obtain ⟨p, _, m, _, rfl⟩ := mem_detectWithLocalPatterns.mp hf
  rfl

theorem mem_parsePromptSecurityResponse {data : PSResponse}
    {f : DetectedSecret} :
    f ∈ parsePromptSecurityResponse data ↔
      ∃ sec ∈ psFindings data,
        f = { type := jsOrStr sec.entity_type "Unknown"
              description := jsOrStr sec.entity_type "Unknown" ++ " detected"
                ++ (if jsOrStr sec.category "Other" = "" then ""
                    else " in " ++ jsOrStr sec.category "Other")
              value := maskSecret (jsOrStr sec.entity "")
              location := 0
              confidence := psConfidence data
              riskLevel := if psAction data = some "block" then RiskLevel.CRITICAL
                           else mapCategoryToRiskLevel (jsOrStr sec.category "Other")
                             (jsOrStr sec.entity_type "Unknown")
              source := Source.prompt_security } := by
  simp only [parsePromptSecurityResponse, List.mem_map]
  constructor
  · rintro ⟨sec, hsec, rfl⟩
    exact ⟨sec, hsec, rfl⟩
  · rintro ⟨sec, hsec, rfl⟩
    exact ⟨sec, hsec, rfl⟩

theorem parse_location {data : PSResponse} {f : DetectedSecret}
    (hf : f ∈ parsePromptSecurityResponse data) : f.location = 0 := by
  obtain ⟨sec, _, rfl⟩ := mem_parsePromptSecurityResponse.mp hf
  rfl

theorem parse_source {data : PSResponse} {f : DetectedSecret}
    (hf : f ∈ parsePromptSecurityResponse data) :
    f.source = Source.prompt_security := by
  obtain ⟨sec, _, rfl⟩ := mem_parsePromptSecurityResponse.mp hf
  rfl

theorem parse_length (data : PSResponse) :
    (parsePromptSecurityResponse data).length = (psFindings data).length := by
  simp [parsePromptSecurityResponse]

theorem psResultPrompt_of_result {data : PSResponse} {p : PSPrompt}
    (h : data.result.bind (fun r => r.prompt) = some p) :
    psResultPrompt data = some p := by
  simp [psResultPrompt, jsOr, h]

theorem psResultPrompt_of_root {data : PSResponse}
    (h1 : data.result.bind (fun r => r.prompt) = none) :
    psResultPrompt data = data.prompt := by
  simp [psResultPrompt, jsOr, h1]

theorem psFindings_of_some {data : PSResponse} {p : PSPrompt}
    {l : List PSFinding} (hp : psResultPrompt data = some p)
    (hl : p.findingsSecrets = some l) : psFindings data = l := by
  simp [psFindings, hp, hl]

theorem psFindings_of_none {data : PSResponse}
    (h : (psResultPrompt data).bind (fun p => p.findingsSecrets) = none) :
    psFindings data = [] := by
  simp [psFindings, h]

/-! ### Claim theorems -/

/-- C1: `detect` is total with respect to its caller — the embedding returns
a plain `List DetectedSecret` for every text and every remote outcome
(unconfigured, connection failure, timeout, malformed response, success),
with every thrown JS exception absorbed by the `try`/`catch` — and whenever
the remote path throws (is unconfigured or fails), every finding in the
result carries `source = local`. -/
theorem C1_detect_local_on_remote_failure (text : String)
    (outcome : RemoteOutcome)
    (h : ∃ msg, detectWithPromptSecurity text outcome = Except.error msg) :
    ∀ f ∈ detectSecrets outcome text, f.source = Source.localSrc := by
  obtain ⟨msg, hmsg⟩ := h
  rw [detectSecrets_of_error hmsg]
  intro f hf
  exact local_source (List.Sublist.mem hf (deduplicateSecrets_sublist _))

theorem C1_witness :
    (∃ msg, detectWithPromptSecurity "AKIA0000000000000000"
        (RemoteOutcome.requestError "ECONNREFUSED") = Except.error msg) ∧
    ∀ f ∈ detectSecrets (RemoteOutcome.requestError "ECONNREFUSED")
        "AKIA0000000000000000", f.source = Source.localSrc :=
  ⟨⟨"API service unavailable", rfl⟩,
   C1_detect_local_on_remote_failure "AKIA0000000000000000"
     (RemoteOutcome.requestError "ECONNREFUSED")
     ⟨"API service unavailable", rfl⟩⟩

/-- A finding whose `riskLevel` is `NONE` (legal per the `RiskLevel` type of
`types/index.ts`). -/
def noneRiskFinding : DetectedSecret :=
  { type := "x", description := "", value := "", location := 0,
    confidence := 0, riskLevel := RiskLevel.NONE, source := Source.localSrc }

/-- C2 counterexample: on the one-element list whose finding has riskLevel
`NONE`, `calculateRiskLevel` returns `LOW`, not the maximum level present
(`NONE`) as the claim states. -/
theorem C2_counterexample :
    calculateRiskLevel [noneRiskFinding] = RiskLevel.LOW ∧
    aggregateRiskSpec [noneRiskFinding] = RiskLevel.NONE ∧
    calculateRiskLevel [noneRiskFinding]
      ≠ aggregateRiskSpec [noneRiskFinding] := by
  decide

/-- C2 (amended): `aggregateRisk` returns `NONE` for the empty list and,
for every non-empty list, the maximum riskLevel present under
`CRITICAL > HIGH > MEDIUM > LOW > NONE` floored at `LOW` — presence, not
count, decides, but a non-empty all-`NONE` list aggregates to `LOW`, not
`NONE`. -/
theorem C2_aggregateRisk_amended (l : List DetectedSecret) :
    calculateRiskLevel l = aggregateRiskAmended l :=
  calculateRiskLevel_eq_amended l

/-- C3: `maskSecret` preserves length; length ≤ 8 becomes a same-length run
of mask characters; length > 8 keeps the first 4 and last 4 characters with
`length − 8` mask characters between them. -/
theorem C3_maskSecret_shape (s : String) :
    (maskSecret s).length = s.length ∧
    (s.length ≤ 8 → (maskSecret s).data = List.replicate s.length maskChar) ∧
    (8 < s.length → (maskSecret s).data
      = s.data.take 4 ++ List.replicate (s.length - 8) maskChar
        ++ s.data.drop (s.length - 4)) := by
  obtain ⟨l⟩ := s
  have hdata : (String.mk l).data = l := rfl
  simp only [maskSecret, maskChar, String.length_mk, hdata]
  by_cases h : l.length ≤ 8
  · rw [if_pos h]
    refine ⟨?_, fun _ => rfl, fun h8 => absurd h (by omega)⟩
    simp [String.length_mk]
  · rw [if_neg h]
    refine ⟨?_, fun h8 => absurd h8 (by omega), fun _ => rfl⟩
    simp only [String.length_mk, List.length_append, List.length_take,
      List.length_replicate, List.length_drop]
    omega

theorem C3_witness :
    8 < ("abcdefghij" : String).length ∧
    (maskSecret "abcdefghij").data
      = ("abcdefghij" : String).data.take 4
        ++ List.replicate (("abcdefghij" : String).length - 8) maskChar
        ++ ("abcdefghij" : String).data.drop
            (("abcdefghij" : String).length - 4) :=
  ⟨by decide, (C3_maskSecret_shape "abcdefghij").2.2 (by decide)⟩

/-- C4: when the overall verdict is `block`, every finding built from that
response has `riskLevel = CRITICAL`, regardless of category or entity
type. -/
theorem C4_blocked_forces_critical (data : PSResponse) (f : DetectedSecret)
    (hb : psAction data = some "block")
    (hf : f ∈ parsePromptSecurityResponse data) :
    f.riskLevel = RiskLevel.CRITICAL := by
  obtain ⟨sec, _, rfl⟩ := mem_parsePromptSecurityResponse.mp hf
  simp [hb]

/-- A blocked remote response containing an "Other"-category password
finding. -/
def blockedResponse : PSResponse :=
  { result := some
      { action := some "block",
        prompt := some
          { findingsSecrets := some
              [ { entity_type := some "Password", category := some "Other",
                  entity := some "hunter2" } ],
            action := none, scoresSecretsScore := none } },
    prompt := none }

/-- The finding parsed from `blockedResponse`. -/
def blockedPasswordFinding : DetectedSecret :=
  { type := "Password", description := "Password detected in Other",
    value := "*******", location := 0, confidence := 19 / 20,
    riskLevel := RiskLevel.CRITICAL, source := Source.prompt_security }

theorem C4_witness :
    psAction blockedResponse = some "block" ∧
    blockedPasswordFinding ∈ parsePromptSecurityResponse blockedResponse ∧
    blockedPasswordFinding.riskLevel = RiskLevel.CRITICAL :=
  ⟨rfl, List.Mem.head _,
   C4_blocked_forces_critical blockedResponse blockedPasswordFinding
     rfl (List.Mem.head _)⟩

/-- C5: the category/entity-type risk table of the non-blocked remote path —
"Access Tokens" is `CRITICAL` exactly when the entity type contains "AWS"
and `HIGH` otherwise (including GitHub), "Other" is `MEDIUM` for every
entity type, and any other category is `HIGH`. -/
theorem C5_category_mapping (category entityType : String) :
    mapCategoryToRiskLevel category entityType
      = mapCategoryToRiskLevelSpec category entityType := by
  unfold mapCategoryToRiskLevel mapCategoryToRiskLevelSpec
  split_ifs <;> rfl

/-- C6: the remote payload is accepted with its findings list nested under
`result.prompt.findings` or, when that path is absent, directly under
`prompt.findings`; whenever neither shape yields a findings list, parsing
returns zero findings (and never an error — the embedding is total). -/
theorem C6_response_shape_tolerance (data : PSResponse) :
    (∀ p : PSPrompt,
      (data.result.bind (fun r => r.prompt) = some p ∨
        (data.result.bind (fun r => r.prompt) = none ∧ data.prompt = some p)) →
      (∀ l, p.findingsSecrets = some l →
          (parsePromptSecurityResponse data).length = l.length) ∧
      (p.findingsSecrets = none → parsePromptSecurityResponse data = [])) ∧
    (data.result.bind (fun r => r.prompt) = none → data.prompt = none →
      parsePromptSecurityResponse data = []) := by
  constructor
  · intro p hp
    have hrp : psResultPrompt data = some p := by
      rcases hp with h | ⟨h1, h2⟩
      · exact psResultPrompt_of_result h
      · rw [psResultPrompt_of_root h1]; exact h2
    constructor
    · intro l hl
      rw [parse_length, psFindings_of_some hrp hl]
    · intro hl
      have hempty : psFindings data = [] := by
        apply psFindings_of_none
        rw [hrp]
        simp [hl]
      simp [parsePromptSecurityResponse, hempty]
  · intro h1 h2
    have hrp : psResultPrompt data = none := by
      rw [psResultPrompt_of_root h1]; exact h2
    have hempty : psFindings data = [] := by
      apply psFindings_of_none
      rw [hrp]
      rfl
    simp [parsePromptSecurityResponse, hempty]

/-- A payload with the findings nested under `result.prompt`. -/
def nestedShapePrompt : PSPrompt :=
  { findingsSecrets := some
      [ { entity_type := some "A", category := some "Access Tokens",
          entity := some "x" },
        { entity_type := some "B", category := some "Other",
          entity := some "y" } ],
    action := none, scoresSecretsScore := none }

def nestedShapeResponse : PSResponse :=
  { result := some { action := none, prompt := some nestedShapePrompt },
    prompt := none }

/-- A payload with the findings directly under a root-level `prompt`. -/
def rootShapePrompt : PSPrompt :=
  { findingsSecrets := some
      [ { entity_type := some "C", category := some "Other",
          entity := some "z" } ],
    action := some "log", scoresSecretsScore := none }

def rootShapeResponse : PSResponse :=
  { result := none, prompt := some rootShapePrompt }

/-- A payload in which neither shape yields a findings list. -/
def emptyShapeResponse : PSResponse :=
  { result := some { action := some "allow", prompt := none },
    prompt := none }

theorem C6_witness :
    (parsePromptSecurityResponse nestedShapeResponse).length = 2 ∧
    (parsePromptSecurityResponse rootShapeResponse).length = 1 ∧
    parsePromptSecurityResponse emptyShapeResponse = [] :=
  ⟨((C6_response_shape_tolerance nestedShapeResponse).1 nestedShapePrompt
      (Or.inl rfl)).1 _ rfl,
   ((C6_response_shape_tolerance rootShapeResponse).1 rootShapePrompt
      (Or.inr ⟨rfl, rfl⟩)).1 _ rfl,
   (C6_response_shape_tolerance emptyShapeResponse).2 rfl rfl⟩

/-- C7: deduplication is the order-preserving first-occurrence filter on the
`(type, location)` key (an order-preserving sublist of its input), so no two
findings of its output — in particular of any `detect` call's output — share
a `(type, location)` pair. -/
theorem C7_dedup_first_occurrence :
    (∀ l : List DetectedSecret,
        deduplicateSecrets l = dedupByPair l ∧
        (deduplicateSecrets l).Sublist l ∧
        (deduplicateSecrets l).Pairwise
          (fun a b => (a.type, a.location) ≠ (b.type, b.location))) ∧
    (∀ (outcome : RemoteOutcome) (text : String),
        (detectSecrets outcome text).Pairwise
          (fun a b => (a.type, a.location) ≠ (b.type, b.location))) := by
  constructor
  · intro l
    exact ⟨deduplicateSecrets_eq_dedupByPair l, deduplicateSecrets_sublist l,
      deduplicateSecrets_pairwise l⟩
  · intro outcome text
    rcases h : detectWithPromptSecurity text outcome with msg | l
    · rw [detectSecrets_of_error h]
      exact deduplicateSecrets_pairwise _
    · rw [detectSecrets_of_ok h]
      exact deduplicateSecrets_pairwise _

/-- C8: every finding's `value` is the masked raw match — each local finding
masks its regex match, each remote finding masks the reported `entity`, and
consequently every finding returned by `detect` carries `maskSecret` of some
raw string (the raw value never leaves the Detector). -/
theorem C8_values_masked :
    (∀ (text : String) (f : DetectedSecret), f ∈ detectWithLocalPatterns text →
        ∃ p ∈ patterns, ∃ m ∈ jsMatch p.tryMatch text,
          f.value = maskSecret m) ∧
    (∀ (data : PSResponse) (f : DetectedSecret),
        f ∈ parsePromptSecurityResponse data →
        ∃ sec ∈ psFindings data, f.value = maskSecret (jsOrStr sec.entity "")) ∧
    (∀ (outcome : RemoteOutcome) (text : String) (f : DetectedSecret),
        f ∈ detectSecrets outcome text → ∃ raw, f.value = maskSecret raw) := by
  refine ⟨?_, ?_, ?_⟩
  · intro text f hf
    obtain ⟨p, hp, m, hm, rfl⟩ := mem_detectWithLocalPatterns.mp hf
    exact ⟨p, hp, m, hm, rfl⟩
  · intro data f hf
    obtain ⟨sec, hsec, rfl⟩ := mem_parsePromptSecurityResponse.mp hf
    exact ⟨sec, hsec, rfl⟩
  · intro outcome text f hf
    rcases h : detectWithPromptSecurity text outcome with msg | l
    · rw [detectSecrets_of_error h] at hf
      have hf2 := List.Sublist.mem hf (deduplicateSecrets_sublist _)
      obtain ⟨p, _, m, _, rfl⟩ := mem_detectWithLocalPatterns.mp hf2
      exact ⟨m, rfl⟩
    · cases outcome with
      | notConfigured => simp [detectWithPromptSecurity] at h
      | requestError code => simp [detectWithPromptSecurity] at h
      | response data =>
        have hl : l = parsePromptSecurityResponse data := by
          have := h.symm
          simpa [detectWithPromptSecurity] using this
        rw [detectSecrets_of_ok h] at hf
        have hf2 := List.Sublist.mem hf (deduplicateSecrets_sublist _)
        rw [hl] at hf2
        obtain ⟨sec, hsec, rfl⟩ := mem_parsePromptSecurityResponse.mp hf2
        exact ⟨jsOrStr sec.entity "", rfl⟩

/-- The AWS access-key finding reported by the local path on the text
`AKIA0000000000000000` (remote path failing). -/
def awsLocalFinding : DetectedSecret :=
  { type := "AWS Access Key", description := "AWS Access Key ID detected",
    value := maskSecret "AKIA0000000000000000", location := 0,
    confidence := 4 / 5, riskLevel := RiskLevel.HIGH,
    source := Source.localSrc }

theorem C8_witness :
    awsLocalFinding ∈ detectSecrets (RemoteOutcome.requestError "ECONNREFUSED")
      "AKIA0000000000000000" ∧
    ∃ raw, awsLocalFinding.value = maskSecret raw :=
  ⟨List.Mem.head _,
   C8_values_masked.2.2 (RemoteOutcome.requestError "ECONNREFUSED")
     "AKIA0000000000000000" awsLocalFinding (List.Mem.head _)⟩

/-- C9 counterexample: the JWT rule reports the two-segment string
`eyJa.b` (it contains a single dot, so it is not three dot-separated
segments), refuting "a string with only two dot-separated segments is not
reported by this rule". -/
theorem C9_counterexample :
    jsMatch jwtTokenTry "eyJa.b" = ["eyJa.b"] ∧
    ("eyJa.b" : String).data.count '.' = 1 ∧
    ∃ f ∈ detectWithLocalPatterns "eyJa.b",
      f.type = "JWT Token" ∧ f.riskLevel = RiskLevel.MEDIUM := by
  refine ⟨rfl, rfl, ?_⟩
  refine ⟨{ type := "JWT Token", description := "JSON Web Token detected",
            value := maskSecret "eyJa.b", location := 0, confidence := 4 / 5,
            riskLevel := RiskLevel.MEDIUM, source := Source.localSrc },
          List.Mem.head _, rfl, rfl⟩

/-- C9 (amended): every finding the JWT rule produces has type "JWT Token"
and riskLevel `MEDIUM`, and its raw match is `eyJ` followed by a nonempty
base64url-class run, a dot, a second nonempty run, and a possibly-empty
tail run (which may contain the third dot-separated segment) — i.e. the
rule matches strings of **two or three** dot-separated segments whose first
segment starts with `eyJ`, not exactly three. -/
theorem C9_jwt_rule (text : String) (f : DetectedSecret)
    (hf : f ∈ detectWithLocalPatterns text) (ht : f.type = "JWT Token") :
    f.riskLevel = RiskLevel.MEDIUM ∧
    ∃ m ∈ jsMatch jwtTokenTry text, f.value = maskSecret m ∧
      ∃ a b c, m.data = "eyJ".data ++ a ++ '.' :: (b ++ c) ∧ a ≠ [] ∧ b ≠ []
        ∧ a.all classJwt1 = true ∧ b.all classJwt1 = true
        ∧ c.all classJwt3 = true := by
  obtain ⟨p, hp, m, hm, rfl⟩ := mem_detectWithLocalPatterns.mp hf
  simp only [patterns, List.mem_cons, List.not_mem_nil, or_false] at hp
  simp only at ht
  rcases hp with rfl | rfl | rfl | rfl | rfl | rfl | rfl | rfl <;>
    try exact absurd ht (by decide)
  refine ⟨rfl, m, hm, rfl, ?_⟩
  obtain ⟨lm, hlm, rfl⟩ := List.mem_map.mp hm
  obtain ⟨u, n, hu, rfl⟩ := mem_scanAll_of_mem _ _ _ hlm
  exact jwtTokenTry_decomp u (n + 1) hu

/-- The finding the JWT rule produces on the two-segment text `eyJa.b`. -/
def jwtTwoSegFinding : DetectedSecret :=
  { type := "JWT Token", description := "JSON Web Token detected",
    value := maskSecret "eyJa.b", location := 0, confidence := 4 / 5,
    riskLevel := RiskLevel.MEDIUM, source := Source.localSrc }

theorem C9_witness :
    jwtTwoSegFinding ∈ detectWithLocalPatterns "eyJa.b" ∧
    jwtTwoSegFinding.type = "JWT Token" ∧
    (jwtTwoSegFinding.riskLevel = RiskLevel.MEDIUM ∧
      ∃ m ∈ jsMatch jwtTokenTry "eyJa.b", jwtTwoSegFinding.value = maskSecret m ∧
        ∃ a b c, m.data = "eyJ".data ++ a ++ '.' :: (b ++ c) ∧ a ≠ [] ∧ b ≠ []
          ∧ a.all classJwt1 = true ∧ b.all classJwt1 = true
          ∧ c.all classJwt3 = true) :=
  ⟨List.Mem.head _, rfl,
   C9_jwt_rule "eyJa.b" jwtTwoSegFinding (List.Mem.head _) rfl⟩

/-- C10: every remote-path finding has `location = 0`, so after
deduplication by `(type, location)` the output of a `detect` call whose
remote path succeeded contains at most one finding per entity type (a
second remote finding with the same entity type is dropped even when it
stems from a distinct occurrence). -/
theorem C10_remote_location_zero (data : PSResponse) :
    (∀ f ∈ parsePromptSecurityResponse data, f.location = 0) ∧
    (∀ text : String,
      (detectSecrets (RemoteOutcome.response data) text).Pairwise
        (fun a b => a.type ≠ b.type)) := by
  constructor
  · intro f hf
    exact parse_location hf
  · intro text
    have hok : detectWithPromptSecurity text (RemoteOutcome.response data)
        = Except.ok (parsePromptSecurityResponse data) := rfl
    rw [detectSecrets_of_ok hok]
    have hpw := deduplicateSecrets_pairwise (parsePromptSecurityResponse data)
    refine List.Pairwise.imp_of_mem ?_ hpw
    intro a b ha hb hne htype
    apply hne
    have ha0 : a.location = 0 :=
      parse_location (List.Sublist.mem ha (deduplicateSecrets_sublist _))
    have hb0 : b.location = 0 :=
      parse_location (List.Sublist.mem hb (deduplicateSecrets_sublist _))
    rw [Prod.mk.injEq]
    exact ⟨htype, by rw [ha0, hb0]⟩

/-- A remote response reporting the same entity type twice, for two distinct
raw occurrences. -/
def dupTypesResponse : PSResponse :=
  { result := some
      { action := none,
        prompt := some
          { findingsSecrets := some
              [ { entity_type := some "AWS Access Key",
                  category := some "Access Tokens",
                  entity := some "AKIA0000000000000000" },
                { entity_type := some "AWS Access Key",
                  category := some "Access Tokens",
                  entity := some "AKIA1111111111111111" } ],
            action := none, scoresSecretsScore := none } },
    prompt := none }

/-- The first of the two findings parsed from `dupTypesResponse`. -/
def firstDupFinding : DetectedSecret :=
  { type := "AWS Access Key",
    description := "AWS Access Key detected in Access Tokens",
    value := maskSecret "AKIA0000000000000000", location := 0,
    confidence := 19 / 20, riskLevel := RiskLevel.CRITICAL,
    source := Source.prompt_security }

theorem C10_witness :
    firstDupFinding ∈ parsePromptSecurityResponse dupTypesResponse ∧
    firstDupFinding.location = 0 ∧
    (detectSecrets (RemoteOutcome.response dupTypesResponse) "").Pairwise
      (fun a b => a.type ≠ b.type) :=
  ⟨List.Mem.head _,
   (C10_remote_location_zero dupTypesResponse).1 firstDupFinding
     (List.Mem.head _),
   (C10_remote_location_zero dupTypesResponse).2 ""⟩
